import Mathlib

/-!
Shallow embedding of `src/lib/timer_store.js` from preiter93/time-tracker-svelte.

The module is a CRUD facade over a browser-local key-value store holding a
JSON-encoded array of timer records, plus a reactive side-channel publishing a
map from timer id to its current live duration.

Modelling decisions:
- JavaScript numbers (timestamps in milliseconds, durations in seconds) are
  modelled as rationals `ℚ`; the only arithmetic the code performs is
  addition, subtraction and division by 1000, all exact on `ℚ`.
- `new Date()` (the platform clock) is passed explicitly as a `now : ℚ`
  parameter (milliseconds since epoch). A `Date` value stored in
  `started_at` is modelled by its millisecond timestamp; `null` by `none`.
- `Math.random()`-driven id generation is modelled by an explicit stream of
  index picks `Fin 8 → Fin 62`: `Math.floor(Math.random() * 62)` always lands
  in `[0, 62)` because `Math.random() < 1`.
- `localStorage` state and the published `durationsStore` are threaded as an
  explicit `StoreState`. The JavaScript `Map` built by `updateDurations` is
  modelled as an association list with the `Map` constructor's semantics
  (first-occurrence position, last value wins), see `mkJsMap`.
- `JSON.parse` is abstracted by its contract: on the serialized form of a
  record array it returns that array, on a malformed string it throws a
  `SyntaxError`. The raw stored value is therefore modelled by the inductive
  `StoredValue` (absent / malformed / well-formed), and fallible paths return
  `Except JsError`.
-/

namespace TimerStoreModel

/-- A timer record as persisted in local storage (class `TimerItemValue` in
the source): id, display name, accumulated duration in seconds, the
timestamp of the last start (in ms, `none` = paused), and free-text notes. -/
structure TimerItemValue where
  id : String
  name : String
  duration : ℚ
  started_at : Option ℚ
  notes : String
deriving Repr, DecidableEq

/-- The derived view returned to callers (the object literal built by
`convertTimerItem` in the source). -/
structure TimerItem where
  id : String
  name : String
  isRunning : Bool
  duration : ℚ
  offsetDuration : ℚ
  requestFocus : Bool
  notes : String
deriving Repr, DecidableEq

/-- `elapsedSince(date)`: elapsed seconds since `date`, measured at `now`
(ms); `0` when `date` is `null`. Mirrors
`date ? (new Date().getTime() - new Date(date).getTime()) / 1000 : 0`. -/
def elapsedSince (date : Option ℚ) (now : ℚ) : ℚ :=
  match date with
  | some t => (now - t) / 1000
  | none => 0

/-- `convertTimerItem(timer, requestFocus)`: derive the caller-facing view.
The `duration` field of the view is the literal `0` from the source. Callers
that omit the `requestFocus` argument (an `undefined`, falsy) are modelled by
passing `false`. -/
def convertTimerItem (timer : TimerItemValue) (requestFocus : Bool) (now : ℚ) : TimerItem :=
  { id := timer.id
    name := timer.name
    isRunning := timer.started_at ≠ none
    duration := 0
    offsetDuration := timer.duration + elapsedSince timer.started_at now
    requestFocus := requestFocus
    notes := timer.notes }

instance (timer : TimerItemValue) : Decidable (timer.started_at ≠ none) := by
  cases h : timer.started_at
  · exact isFalse (by simp [h])
  · exact isTrue (by simp [h])

/-- The 62-character alphabet of `generateRandomID`. -/
def characters : String :=
  "ABCDEFGHIJKLMNOPQRSTUVWXYZabcdefghijklmnopqrstuvwxyz0123456789"

/-- `generateRandomID()`: eight characters of `characters`, each chosen by an
index pick in `[0, 62)` (the value of `Math.floor(Math.random() * 62)`).
The fallback of `getD` is unreachable since the alphabet has 62 characters. -/
def generateRandomID (picks : Fin 8 → Fin 62) : String :=
  String.mk ((List.finRange 8).map fun i => characters.toList.getD (picks i).val 'A')

/-- The pair list `items.map(item => [item.id, item.duration + elapsedSince(item.started_at)])`
from `updateDurations`. -/
def durationPairs (items : List TimerItemValue) (now : ℚ) : List (String × ℚ) :=
  items.map fun item => (item.id, item.duration + elapsedSince item.started_at now)

/-- One `Map.prototype.set` step of the JavaScript `Map` constructor: an
existing key keeps its position and gets the new value, a fresh key is
appended. -/
def jsMapInsert (m : List (String × ℚ)) (k : String) (v : ℚ) : List (String × ℚ) :=
  if m.any fun p => p.1 == k then
    m.map fun p => if p.1 == k then (k, v) else p
  else
    m ++ [(k, v)]

/-- `new Map(pairs)`: fold the pairs through `jsMapInsert`. -/
def mkJsMap (pairs : List (String × ℚ)) : List (String × ℚ) :=
  pairs.foldl (fun m p => jsMapInsert m p.1 p.2) []

/-- The explicit state threaded through the module: the parsed content of the
`timers` key in local storage, and the content of the published
`durationsStore`. -/
structure StoreState where
  items : List TimerItemValue
  published : List (String × ℚ)
deriving Repr, DecidableEq

/-- `updateDurations(items)`: rebuild the duration map and publish it. -/
def updateDurations (items : List TimerItemValue) (now : ℚ) (s : StoreState) : StoreState :=
  { s with published := mkJsMap (durationPairs items now) }

/-- `setItems(items)`: serialize `items` into local storage, then publish the
recomputed duration map. -/
def setItems (items : List TimerItemValue) (now : ℚ) (s : StoreState) : StoreState :=
  updateDurations items now { s with items := items }

/-- `list()`: publish recomputed durations, return all records as views. -/
def listOp (now : ℚ) (s : StoreState) : StoreState × List TimerItem :=
  (updateDurations s.items now s,
    s.items.map fun timer => convertTimerItem timer false now)

/-- `create()`: append a fresh record named `Timer {count+1}` with zero
duration, not running, empty notes; persist; return views with
`requestFocus` set exactly on records whose id equals the generated id. -/
def createOp (picks : Fin 8 → Fin 62) (now : ℚ) (s : StoreState) :
    StoreState × List TimerItem :=
  let id := generateRandomID picks
  let newTimer : TimerItemValue :=
    { id := id, name := "Timer " ++ toString (s.items.length + 1),
      duration := 0, started_at := none, notes := "" }
  let items := s.items ++ [newTimer]
  (setItems items now s,
    items.map fun timer => convertTimerItem timer (timer.id == id) now)

/-- `delete(id)`: drop every record whose id equals `id`; persist; return the
remaining views. -/
def deleteOp (id : String) (now : ℚ) (s : StoreState) : StoreState × List TimerItem :=
  let items := s.items.filter fun item => item.id != id
  (setItems items now s,
    items.map fun timer => convertTimerItem timer false now)

/-- `updateTimerItemInStore(id, cb)`: find the first record with the given
id; if found, replace it by `cb` of it, persist, and return the views;
otherwise return `null` and leave both the store and the published map
untouched. `findIndex` returning `-1` corresponds to
`List.findIdx` returning the length. -/
def updateTimerItemInStore (id : String) (cb : TimerItemValue → TimerItemValue)
    (now : ℚ) (s : StoreState) : StoreState × Option (List TimerItem) :=
  let items := s.items
  let index := items.findIdx fun item => item.id == id
  if h : index < items.length then
    let items' := items.set index (cb (items.get ⟨index, h⟩))
    (setItems items' now s,
      some (items'.map fun timer => convertTimerItem timer false now))
  else
    (s, none)

/-- `start(id)`: stamp `started_at` with the current time. -/
def startOp (id : String) (now : ℚ) (s : StoreState) :
    StoreState × Option (List TimerItem) :=
  updateTimerItemInStore id (fun item => { item with started_at := some now }) now s

/-- `pause(id)`: fold the live elapsed seconds into `duration`, clear
`started_at`. -/
def pauseOp (id : String) (now : ℚ) (s : StoreState) :
    StoreState × Option (List TimerItem) :=
  updateTimerItemInStore id
    (fun item =>
      { item with duration := item.duration + elapsedSince item.started_at now,
                  started_at := none }) now s

/-- `reset(id)`: clear `started_at` and zero `duration` unconditionally. -/
def resetOp (id : String) (now : ℚ) (s : StoreState) :
    StoreState × Option (List TimerItem) :=
  updateTimerItemInStore id
    (fun item => { item with started_at := none, duration := 0 }) now s

/-- `updateName(id, name)`: overwrite the display name. -/
def updateNameOp (id : String) (name : String) (now : ℚ) (s : StoreState) :
    StoreState × Option (List TimerItem) :=
  updateTimerItemInStore id (fun item => { item with name := name }) now s

/-- `updateNotes(id, notes)`: overwrite the notes. -/
def updateNotesOp (id : String) (notes : String) (now : ℚ) (s : StoreState) :
    StoreState × Option (List TimerItem) :=
  updateTimerItemInStore id (fun item => { item with notes := notes }) now s

/-- `updateDuration(id, duration)`: overwrite the accumulated duration. -/
def updateDurationOp (id : String) (duration : ℚ) (now : ℚ) (s : StoreState) :
    StoreState × Option (List TimerItem) :=
  updateTimerItemInStore id (fun item => { item with duration := duration }) now s

/-- The errors the platform primitives can throw on the paths this module
leaves unguarded: `JSON.parse` on malformed input throws a `SyntaxError`;
dereferencing a field of `undefined` throws a `TypeError`. -/
inductive JsError where
  | syntaxError
  | typeError
deriving Repr, DecidableEq

/-- `sortByIds(ids)`: a silent no-op when `ids.length` differs from the
stored count. Otherwise the source builds `sortedItems[i] =
storeItems[storeItems.findIndex(item => item.id === ids[i])]`; when every id
is found this is the selected records in `ids` order, persisted by
`setItems`. When some id is not found, `findIndex` yields `-1`,
`storeItems[-1]` is `undefined`, `JSON.stringify` persists that slot as
`null` (corrupting the stored array), and `updateDurations` then throws a
`TypeError` reading `item.id` of `undefined`; this failing path is modelled
as `Except.error JsError.typeError`. -/
def sortByIdsOp (ids : List String) (now : ℚ) (s : StoreState) :
    Except JsError StoreState :=
  if ids.length ≠ s.items.length then
    Except.ok s
  else
    let selected := ids.map fun i => s.items.find? fun item => item.id == i
    if selected.all Option.isSome then
      Except.ok (setItems selected.reduceOption now s)
    else
      Except.error JsError.typeError

/-- The raw content of the `timers` key in local storage: `getItems()`
returns `null` (absent), a string that is not valid JSON (on which
`JSON.parse` throws), or the well-formed serialization of a record array (on
which `JSON.parse` returns that array). -/
inductive StoredValue where
  | absent
  | malformed
  | wellFormed (items : List TimerItemValue)
deriving Repr, DecidableEq

/-- `fetchTimerItemsFromStore()`: `[]` when the key is absent, otherwise
`JSON.parse` of the stored string — which throws a `SyntaxError` on a
malformed value, uncaught by the source. -/
def fetchTimerItemsFromStore (raw : StoredValue) : Except JsError (List TimerItemValue) :=
  match raw with
  | StoredValue.absent => Except.ok []
  | StoredValue.malformed => Except.error JsError.syntaxError
  | StoredValue.wellFormed items => Except.ok items

/-- `list()` starting from the raw stored value: fetch (which can throw),
then proceed as `listOp`. -/
def listRaw (raw : StoredValue) (now : ℚ) (published : List (String × ℚ)) :
    Except JsError (StoreState × List TimerItem) :=
  (fetchTimerItemsFromStore raw).map fun items =>
    listOp now { items := items, published := published }

/-- The stored collections reachable by some sequence of repository
operations starting from an empty store. `list` never changes the stored
collection and is omitted; the published component never influences the
stored collection, so each step runs from published state `[]`. The
`sortByIds` step covers exactly the runs that terminate normally (the
throwing path leaves the stored array corrupted outside the record-array
data model). Ids are produced by `generateRandomID` from arbitrary index
picks, exactly as `create` does. -/
inductive Reachable : List TimerItemValue → Prop where
  | empty : Reachable []
  | create (items : List TimerItemValue) (picks : Fin 8 → Fin 62) (now : ℚ) :
      Reachable items → Reachable ((createOp picks now ⟨items, []⟩).1.items)
  | delete (items : List TimerItemValue) (id : String) (now : ℚ) :
      Reachable items → Reachable ((deleteOp id now ⟨items, []⟩).1.items)
  | start (items : List TimerItemValue) (id : String) (now : ℚ) :
      Reachable items → Reachable ((startOp id now ⟨items, []⟩).1.items)
  | pause (items : List TimerItemValue) (id : String) (now : ℚ) :
      Reachable items → Reachable ((pauseOp id now ⟨items, []⟩).1.items)
  | reset (items : List TimerItemValue) (id : String) (now : ℚ) :
      Reachable items → Reachable ((resetOp id now ⟨items, []⟩).1.items)
  | updateName (items : List TimerItemValue) (id name : String) (now : ℚ) :
      Reachable items → Reachable ((updateNameOp id name now ⟨items, []⟩).1.items)
  | updateNotes (items : List TimerItemValue) (id notes : String) (now : ℚ) :
      Reachable items → Reachable ((updateNotesOp id notes now ⟨items, []⟩).1.items)
  | updateDuration (items : List TimerItemValue) (id : String) (d now : ℚ) :
      Reachable items → Reachable ((updateDurationOp id d now ⟨items, []⟩).1.items)
  | sortByIds (items : List TimerItemValue) (ids : List String) (now : ℚ)
      (s' : StoreState) :
      Reachable items → sortByIdsOp ids now ⟨items, []⟩ = Except.ok s' →
      Reachable s'.items

/-- `Reachable` restricted to benign runs: every `create` draws an id that
does not collide with a stored one, and every `sortByIds` call passes a
duplicate-free id list. The code enforces neither restriction. -/
inductive ReachableSafe : List TimerItemValue → Prop where
  | empty : ReachableSafe []
  | create (items : List TimerItemValue) (picks : Fin 8 → Fin 62) (now : ℚ) :
      ReachableSafe items → generateRandomID picks ∉ items.map TimerItemValue.id →
      ReachableSafe ((createOp picks now ⟨items, []⟩).1.items)
  | delete (items : List TimerItemValue) (id : String) (now : ℚ) :
      ReachableSafe items → ReachableSafe ((deleteOp id now ⟨items, []⟩).1.items)
  | start (items : List TimerItemValue) (id : String) (now : ℚ) :
      ReachableSafe items → ReachableSafe ((startOp id now ⟨items, []⟩).1.items)
  | pause (items : List TimerItemValue) (id : String) (now : ℚ) :
      ReachableSafe items → ReachableSafe ((pauseOp id now ⟨items, []⟩).1.items)
  | reset (items : List TimerItemValue) (id : String) (now : ℚ) :
      ReachableSafe items → ReachableSafe ((resetOp id now ⟨items, []⟩).1.items)
  | updateName (items : List TimerItemValue) (id name : String) (now : ℚ) :
      ReachableSafe items → ReachableSafe ((updateNameOp id name now ⟨items, []⟩).1.items)
  | updateNotes (items : List TimerItemValue) (id notes : String) (now : ℚ) :
      ReachableSafe items → ReachableSafe ((updateNotesOp id notes now ⟨items, []⟩).1.items)
  | updateDuration (items : List TimerItemValue) (id : String) (d now : ℚ) :
      ReachableSafe items → ReachableSafe ((updateDurationOp id d now ⟨items, []⟩).1.items)
  | sortByIds (items : List TimerItemValue) (ids : List String) (now : ℚ)
      (s' : StoreState) :
      ReachableSafe items → ids.Nodup → sortByIdsOp ids now ⟨items, []⟩ = Except.ok s' →
      ReachableSafe s'.items

/-! ### Helper lemmas -/

@[simp]
theorem setItems_items (items : List TimerItemValue) (now : ℚ) (s : StoreState) :
    (setItems items now s).items = items := rfl

@[simp]
theorem setItems_published (items : List TimerItemValue) (now : ℚ) (s : StoreState) :
    (setItems items now s).published = mkJsMap (durationPairs items now) := rfl

@[simp]
theorem updateDurations_items (items : List TimerItemValue) (now : ℚ) (s : StoreState) :
    (updateDurations items now s).items = s.items := rfl

/-- Writing back the element already at a position leaves the list unchanged. -/
theorem set_get_self {α : Type} (l : List α) (n : ℕ) (h : n < l.length) :
    l.set n (l.get ⟨n, h⟩) = l := by
  induction l generalizing n with
  | nil => simp at h
  | cons a t ih =>
    cases n with
    | zero => simp
    | succ m =>
      simp only [List.get_eq_getElem, List.getElem_cons_succ, List.set_cons_succ,
        List.cons.injEq, true_and]
      exact ih m (by simpa using h)

/-- When no stored record has the requested id, `findIndex` misses
(modelled: `findIdx` returns the length). -/
theorem findIdx_miss (l : List TimerItemValue) (id : String)
    (h : ∀ r ∈ l, r.id ≠ id) :
    (l.findIdx fun item => item.id == id) = l.length :=
  List.findIdx_eq_length_of_false fun x hx => by
    simpa using h x hx

/-- `updateTimerItemInStore` on a hit: the record at the found index is
rewritten through the callback, the new list is persisted and returned as
views. -/
theorem updateTimerItemInStore_found (id : String) (cb : TimerItemValue → TimerItemValue)
    (now : ℚ) (s : StoreState)
    (h : (s.items.findIdx fun item => item.id == id) < s.items.length) :
    updateTimerItemInStore id cb now s =
      (setItems (s.items.set (s.items.findIdx fun item => item.id == id)
          (cb (s.items.get ⟨s.items.findIdx fun item => item.id == id, h⟩))) now s,
        some ((s.items.set (s.items.findIdx fun item => item.id == id)
            (cb (s.items.get ⟨s.items.findIdx fun item => item.id == id, h⟩))).map
          fun timer => convertTimerItem timer false now)) := by
  unfold updateTimerItemInStore
  rw [dif_pos h]

/-- `updateTimerItemInStore` on a miss: nothing is persisted, nothing is
published, and `null` is returned. -/
theorem updateTimerItemInStore_miss (id : String) (cb : TimerItemValue → TimerItemValue)
    (now : ℚ) (s : StoreState)
    (h : ∀ r ∈ s.items, r.id ≠ id) :
    updateTimerItemInStore id cb now s = (s, none) := by
  unfold updateTimerItemInStore
  rw [dif_neg]
  rw [findIdx_miss s.items id h]
  exact lt_irrefl _

/-- The keys of the duration-pair list are exactly the stored ids. -/
theorem durationPairs_keys (items : List TimerItemValue) (now : ℚ) :
    (durationPairs items now).map Prod.fst = items.map TimerItemValue.id := by
  simp [durationPairs]

/-- Generalized fold step for `mkJsMap`: with pairwise-distinct keys overall,
the JavaScript `Map` constructor appends every pair in order. -/
theorem mkJsMap_go_of_nodup (pairs acc : List (String × ℚ))
    (h : ((acc ++ pairs).map Prod.fst).Nodup) :
    pairs.foldl (fun m p => jsMapInsert m p.1 p.2) acc = acc ++ pairs := by
  induction pairs generalizing acc with
  | nil => simp
  | cons p rest ih =>
    have hnotin : p.1 ∉ acc.map Prod.fst := by
      intro hmem
      have := (List.nodup_append.mp (by simpa using h)).2.2
      exact this hmem (by simp)
    have hany : (acc.any fun q => q.1 == p.1) = false := by
      rw [List.any_eq_false]
      intro q hq
      have hne : q.1 ≠ p.1 := fun heq => hnotin (heq ▸ List.mem_map_of_mem Prod.fst hq)
      simpa using hne
    have hins : jsMapInsert acc p.1 p.2 = acc ++ [p] := by
      unfold jsMapInsert
      rw [hany]
      simp
    rw [List.foldl_cons, hins, ih (acc ++ [p]) (by simpa using h)]
    simp

/-- With pairwise-distinct keys, `new Map(pairs)` is the pair list itself:
one entry per pair, in order, with the given values. -/
theorem mkJsMap_of_nodup (pairs : List (String × ℚ))
    (h : (pairs.map Prod.fst).Nodup) :
    mkJsMap pairs = pairs := by
  unfold mkJsMap
  simpa using mkJsMap_go_of_nodup pairs [] (by simpa using h)

/-- A list of options that are all `some` is `map some` of its
`reduceOption`. -/
theorem reduceOption_map_some {α : Type} (l : List (Option α))
    (h : l.all Option.isSome = true) :
    l.reduceOption.map some = l := by
  induction l with
  | nil => simp
  | cons x rest ih =>
    cases x with
    | none => simp at h
    | some a =>
      simp only [List.all_cons, Bool.and_eq_true] at h
      simp [List.reduceOption_cons_of_some, ih h.2]

/-- A single-record verb on a store holding exactly one record, addressed by
that record's id: the record is rewritten through the callback. -/
theorem updateTimerItemInStore_items_singleton (cb : TimerItemValue → TimerItemValue)
    (rec : TimerItemValue) (now : ℚ) (s : StoreState) (hs : s.items = [rec]) :
    (updateTimerItemInStore rec.id cb now s).1.items = [cb rec] := by
  unfold updateTimerItemInStore
  simp only [hs, List.findIdx_cons, beq_self_eq_true, cond_true, List.length_cons,
    List.length_nil, List.get_eq_getElem]
  rw [dif_pos (by omega : 0 < 0 + 1)]
  simp

/-- Replacing a record through an id-preserving callback leaves the list of
stored ids unchanged. -/
theorem map_id_set_cb (l : List TimerItemValue) (idx : ℕ) (h : idx < l.length)
    (cb : TimerItemValue → TimerItemValue)
    (hcb : (cb (l.get ⟨idx, h⟩)).id = (l.get ⟨idx, h⟩).id) :
    (l.set idx (cb (l.get ⟨idx, h⟩))).map TimerItemValue.id = l.map TimerItemValue.id := by
  rw [List.map_set, hcb]
  have hlen : idx < (l.map TimerItemValue.id).length := by simpa using h
  have hg : TimerItemValue.id (l.get ⟨idx, h⟩) = (l.map TimerItemValue.id).get ⟨idx, hlen⟩ := by
    simp
  rw [hg, set_get_self]

/-- Any single-record verb whose callback preserves the id leaves the list
of stored ids unchanged (both on a hit and on a miss). -/
theorem verb_items_map_id (id : String) (cb : TimerItemValue → TimerItemValue)
    (now : ℚ) (s : StoreState) (hcb : ∀ r, (cb r).id = r.id) :
    ((updateTimerItemInStore id cb now s).1.items).map TimerItemValue.id
      = s.items.map TimerItemValue.id := by
  by_cases h : (s.items.findIdx fun item => item.id == id) < s.items.length
  · rw [updateTimerItemInStore_found id cb now s h]
    simp only [setItems_items]
    exact map_id_set_cb s.items _ h cb (hcb _)
  · unfold updateTimerItemInStore
    rw [dif_neg h]

/-- When the ids are pairwise distinct, persisting publishes exactly the
duration-pair list: one entry per stored record, in order. -/
theorem setItems_published_nodup (items : List TimerItemValue) (now : ℚ) (s : StoreState)
    (h : (items.map TimerItemValue.id).Nodup) :
    (setItems items now s).published = durationPairs items now := by
  rw [setItems_published, mkJsMap_of_nodup]
  rw [durationPairs_keys]
  exact h

/-- When every requested id is found, the records selected by `sortByIds`
carry exactly the requested ids, in order. -/
theorem selected_ids (items : List TimerItemValue) (ids : List String)
    (h : ∀ i ∈ ids, ((items.find? fun item => item.id == i).isSome) = true) :
    (((ids.map fun i => items.find? fun item => item.id == i).reduceOption).map
      TimerItemValue.id) = ids := by
  induction ids with
  | nil => simp
  | cons i rest ih =>
    have hi := h i (List.mem_cons_self i rest)
    obtain ⟨r, hr⟩ := Option.isSome_iff_exists.mp hi
    have hrid : r.id = i := by
      have := List.find?_some hr
      simpa using this
    simp only [List.map_cons, hr, List.reduceOption_cons_of_some, List.map_cons, hrid,
      List.cons.injEq, true_and]
    exact ih fun j hj => h j (List.mem_cons_of_mem _ hj)

/-! ### Claim theorems -/

/-- C2: for every stored record, the derived view has `isRunning` true
exactly when `started_at` is not null, `offsetDuration` equal to the stored
duration plus `elapsedSince started_at` (which is `(now - t)/1000` on a
timestamp and `0` on null), and a `duration` field that is always `0`;
`list` returns exactly these views. -/
theorem view_invariants (timer : TimerItemValue) (rf : Bool) (now : ℚ) :
    ((convertTimerItem timer rf now).isRunning = true ↔ timer.started_at ≠ none)
    ∧ (convertTimerItem timer rf now).offsetDuration
        = timer.duration + elapsedSince timer.started_at now
    ∧ (convertTimerItem timer rf now).duration = 0
    ∧ elapsedSince none now = 0
    ∧ (∀ t : ℚ, elapsedSince (some t) now = (now - t) / 1000)
    ∧ (∀ s : StoreState, (listOp now s).2
        = s.items.map fun t => convertTimerItem t false now) := by
  refine ⟨?_, rfl, rfl, rfl, fun t => rfl, fun s => rfl⟩
  simp [convertTimerItem]

/-- C5: `reset(id)` on a stored record sets its duration to 0 and clears
`started_at` unconditionally — the record's previous `started_at` and
`duration` (hence any live elapsed time) are discarded, never folded in. -/
theorem reset_discards_state (s : StoreState) (id : String) (now : ℚ)
    (idx : ℕ) (r : TimerItemValue)
    (hidx : (s.items.findIdx fun item => item.id == id) = idx)
    (hlt : idx < s.items.length)
    (hr : s.items.get ⟨idx, hlt⟩ = r) :
    (resetOp id now s).1.items
      = s.items.set idx { r with duration := 0, started_at := none }
    ∧ (resetOp id now s).2
      = some ((s.items.set idx { r with duration := 0, started_at := none }).map
          fun timer => convertTimerItem timer false now) := by
  subst hidx
  subst hr
  unfold resetOp
  rw [updateTimerItemInStore_found id _ now s hlt]
  exact ⟨rfl, rfl⟩

/-- Witness for C5 at a concrete running timer: resetting discards the live
run (duration 7, started 5000 ms ago) down to `duration = 0`,
`started_at = null`. -/
theorem reset_discards_state_witness :
    (resetOp "a" 5100
        { items := [{ id := "a", name := "T", duration := 7,
                      started_at := some 100, notes := "n" }],
          published := [] }).1.items
      = [{ id := "a", name := "T", duration := 0, started_at := none, notes := "n" }] := by
  have h := reset_discards_state
    { items := [{ id := "a", name := "T", duration := 7,
                  started_at := some 100, notes := "n" }],
      published := [] }
    "a" 5100 0
    { id := "a", name := "T", duration := 7, started_at := some 100, notes := "n" }
    (by decide) (by decide) rfl
  exact h.1

/-- C3: on an id matching no stored record, each single-record verb returns
`null` and leaves the persisted collection (and the published map) unchanged,
while `delete` removes nothing and returns the full unchanged list of views;
no error is raised on any of these paths. -/
theorem unknown_id_noop (s : StoreState) (id name notes : String) (d now : ℚ)
    (h : ∀ r ∈ s.items, r.id ≠ id) :
    startOp id now s = (s, none)
    ∧ pauseOp id now s = (s, none)
    ∧ resetOp id now s = (s, none)
    ∧ updateNameOp id name now s = (s, none)
    ∧ updateNotesOp id notes now s = (s, none)
    ∧ updateDurationOp id d now s = (s, none)
    ∧ (deleteOp id now s).1.items = s.items
    ∧ (deleteOp id now s).2 = s.items.map fun timer => convertTimerItem timer false now := by
  have hf : s.items.filter (fun item => item.id != id) = s.items :=
    List.filter_eq_self.mpr fun a ha => by simpa using h a ha
  exact ⟨updateTimerItemInStore_miss id _ now s h,
    updateTimerItemInStore_miss id _ now s h,
    updateTimerItemInStore_miss id _ now s h,
    updateTimerItemInStore_miss id _ now s h,
    updateTimerItemInStore_miss id _ now s h,
    updateTimerItemInStore_miss id _ now s h,
    by simp [deleteOp, hf],
    by simp [deleteOp, hf]⟩

/-- Witness for C3 on a concrete one-record store and the absent id
`"zzz"`. -/
theorem unknown_id_noop_witness :
    startOp "zzz" 4
        { items := [{ id := "a", name := "T", duration := 1,
                      started_at := none, notes := "" }],
          published := [] }
      = ({ items := [{ id := "a", name := "T", duration := 1,
                       started_at := none, notes := "" }],
           published := [] }, none)
    ∧ (deleteOp "zzz" 4
        { items := [{ id := "a", name := "T", duration := 1,
                      started_at := none, notes := "" }],
          published := [] }).1.items
      = [{ id := "a", name := "T", duration := 1, started_at := none, notes := "" }] := by
  have h := unknown_id_noop
    { items := [{ id := "a", name := "T", duration := 1,
                  started_at := none, notes := "" }],
      published := [] }
    "zzz" "x" "y" 2 4 (by decide)
  exact ⟨h.1, h.2.2.2.2.2.2.1⟩

/-- C4 counterexample: on a malformed stored value `list()` does not treat
the store as empty — the uncaught `JSON.parse` exception propagates
(`SyntaxError`), so the operation does not return the empty collection of
views. -/
theorem malformed_store_raises :
    listRaw StoredValue.malformed 0 [] = Except.error JsError.syntaxError
    ∧ listRaw StoredValue.malformed 0 []
        ≠ Except.ok ({ items := [], published := [] }, []) := by
  exact ⟨rfl, fun h => Except.noConfusion h⟩

/-- C4 amended: an absent stored value is treated as the empty collection
(no error), and a well-formed one parses back to its record list; a
malformed stored value, however, raises the `JSON.parse` `SyntaxError`
instead of being treated as empty. -/
theorem absent_empty_malformed_raises (now : ℚ) (pub : List (String × ℚ))
    (items : List TimerItemValue) :
    fetchTimerItemsFromStore StoredValue.absent = Except.ok []
    ∧ fetchTimerItemsFromStore (StoredValue.wellFormed items) = Except.ok items
    ∧ fetchTimerItemsFromStore StoredValue.malformed = Except.error JsError.syntaxError
    ∧ listRaw StoredValue.absent now pub = Except.ok ({ items := [], published := [] }, [])
    ∧ listRaw StoredValue.malformed now pub = Except.error JsError.syntaxError :=
  ⟨rfl, rfl, rfl, rfl, rfl⟩

/-- C1: `pause(id)` on a stored record adds to its duration the elapsed
seconds since `started_at` (0 when already paused, leaving the duration —
indeed the whole store — unchanged) and clears `started_at`; consequently
`create()`, `start(id)`, wait Δ seconds, `pause(id)` leaves the stored
duration exactly Δ and `started_at = null`. -/
theorem pause_folds_elapsed (s : StoreState) (id : String) (now : ℚ)
    (idx : ℕ) (r : TimerItemValue)
    (hidx : (s.items.findIdx fun item => item.id == id) = idx)
    (hlt : idx < s.items.length)
    (hr : s.items.get ⟨idx, hlt⟩ = r) :
    (pauseOp id now s).1.items
      = s.items.set idx
          { r with duration := r.duration + elapsedSince r.started_at now,
                   started_at := none }
    ∧ (r.started_at = none → (pauseOp id now s).1.items = s.items)
    ∧ (∀ (picks : Fin 8 → Fin 62) (t0 t1 Δ : ℚ),
        ((pauseOp (generateRandomID picks) (t1 + 1000 * Δ)
            ((startOp (generateRandomID picks) t1
              ((createOp picks t0 { items := [], published := [] }).1)).1)).1).items.map
          (fun t => (t.duration, t.started_at)) = [(Δ, none)]) := by
  subst hidx
  subst hr
  refine ⟨?_, ?_, ?_⟩
  · unfold pauseOp
    rw [updateTimerItemInStore_found id _ now s hlt]
    rfl
  · intro hnone
    unfold pauseOp
    rw [updateTimerItemInStore_found id _ now s hlt]
    simp only [setItems_items]
    have hfix : { s.items.get ⟨_, hlt⟩ with
        duration := (s.items.get ⟨_, hlt⟩).duration
          + elapsedSince (s.items.get ⟨_, hlt⟩).started_at now,
        started_at := none } = s.items.get ⟨_, hlt⟩ := by
      rcases hget : s.items.get ⟨_, hlt⟩ with ⟨i, n, d, st, no⟩
      rw [hget] at hnone
      simp only at hnone
      subst hnone
      simp [elapsedSince]
    rw [hfix, set_get_self]
  · intro picks t0 t1 Δ
    have hs1 : ((createOp picks t0 { items := [], published := [] }).1).items
        = [{ id := generateRandomID picks, name := "Timer 1", duration := 0,
             started_at := none, notes := "" }] := rfl
    have h2 := updateTimerItemInStore_items_singleton
      (fun item => { item with started_at := some t1 })
      { id := generateRandomID picks, name := "Timer 1", duration := 0,
        started_at := none, notes := "" }
      t1 ((createOp picks t0 { items := [], published := [] }).1) hs1
    have h3 := updateTimerItemInStore_items_singleton
      (fun item =>
        { item with
            duration := item.duration + elapsedSince item.started_at (t1 + 1000 * Δ),
            started_at := none })
      { id := generateRandomID picks, name := "Timer 1", duration := 0,
        started_at := some t1, notes := "" }
      (t1 + 1000 * Δ)
      ((startOp (generateRandomID picks) t1
        ((createOp picks t0 { items := [], published := [] }).1)).1) h2
    have h4 : ((pauseOp (generateRandomID picks) (t1 + 1000 * Δ)
          ((startOp (generateRandomID picks) t1
            ((createOp picks t0 { items := [], published := [] }).1)).1)).1).items
        = [{ id := generateRandomID picks, name := "Timer 1",
             duration := 0 + (t1 + 1000 * Δ - t1) / 1000,
             started_at := none, notes := "" }] := by
      simpa [elapsedSince] using h3
    rw [h4]
    have hΔ : (0 : ℚ) + (t1 + 1000 * Δ - t1) / 1000 = Δ := by ring
    rw [hΔ]
    rfl

/-- Witness for C1: a timer with duration 2 started at 1000 ms, paused at
3000 ms, ends with duration 4 and `started_at = null`. -/
theorem pause_folds_elapsed_witness :
    (pauseOp "a" 3000
        { items := [{ id := "a", name := "T", duration := 2,
                      started_at := some 1000, notes := "x" }],
          published := [] }).1.items
      = [{ id := "a", name := "T", duration := 4, started_at := none, notes := "x" }] := by
  have h := pause_folds_elapsed
    { items := [{ id := "a", name := "T", duration := 2,
                  started_at := some 1000, notes := "x" }],
      published := [] }
    "a" 3000 0
    { id := "a", name := "T", duration := 2, started_at := some 1000, notes := "x" }
    (by decide) (by decide) rfl
  have h1 := h.1
  rw [h1]
  norm_num [elapsedSince]

/-- C6 counterexample: when the randomly drawn id collides with a stored
record's id (store holding id `"AAAAAAAA"`, picks all zero so the generated
id is also `"AAAAAAAA"`), the returned views have `requestFocus = true` on
the pre-existing record as well — not `false` on all records other than the
new one. -/
theorem create_requestFocus_collision :
    ((createOp (fun _ => (0 : Fin 62)) 0
        { items := [{ id := "AAAAAAAA", name := "Old", duration := 5,
                      started_at := none, notes := "" }],
          published := [] }).2.map fun v => v.requestFocus) = [true, true] := by
  decide

/-- C6 amended: `create()` appends one record with the generated
8-character id, name `"Timer {n+1}"`, zero duration, null `started_at` and
empty notes, keeping the existing records in place; *provided the generated
id does not already occur in the store*, the returned views have
`requestFocus` true on the new record and false on all others (on a
collision the matching old record is also flagged). Three creates on an
empty store yield names `Timer 1`, `Timer 2`, `Timer 3`. -/
theorem create_appends_numbered_timer (s : StoreState) (now : ℚ)
    (picks : Fin 8 → Fin 62)
    (h : generateRandomID picks ∉ s.items.map TimerItemValue.id) :
    (createOp picks now s).1.items
      = s.items ++ [{ id := generateRandomID picks,
                      name := "Timer " ++ toString (s.items.length + 1),
                      duration := 0, started_at := none, notes := "" }]
    ∧ (generateRandomID picks).length = 8
    ∧ (createOp picks now s).2
        = (s.items.map fun t => convertTimerItem t false now)
          ++ [convertTimerItem
                { id := generateRandomID picks,
                  name := "Timer " ++ toString (s.items.length + 1),
                  duration := 0, started_at := none, notes := "" } true now]
    ∧ (∀ (p1 p2 p3 : Fin 8 → Fin 62) (u1 u2 u3 : ℚ),
        (((createOp p3 u3 ((createOp p2 u2 ((createOp p1 u1
              { items := [], published := [] }).1)).1)).1).items.map
          TimerItemValue.name) = ["Timer 1", "Timer 2", "Timer 3"]) := by
  refine ⟨rfl, ?_, ?_, ?_⟩
  · have hlen : ((List.finRange 8).map
        fun i => characters.toList.getD (picks i).val 'A').length = 8 := by simp
    exact hlen
  · show (s.items ++ [_]).map (fun t => convertTimerItem t (t.id == generateRandomID picks) now) = _
    rw [List.map_append]
    congr 1
    · refine List.map_congr_left fun a ha => ?_
      have hne : a.id ≠ generateRandomID picks :=
        fun he => h (he ▸ List.mem_map_of_mem TimerItemValue.id ha)
      rw [beq_eq_false_iff_ne.mpr hne]
    · simp
  · intro p1 p2 p3 u1 u2 u3
    simp only [createOp, setItems, updateDurations, List.map_append, List.map_cons,
      List.map_nil, List.length_append, List.length_cons, List.length_nil, List.nil_append,
    List.cons.injEq, List.append_assoc, List.singleton_append, and_true, true_and]
    rfl

/-- Witness for C6: creating on a one-record store with picks drawing
`"BBBBBBBB"` (fresh) appends `Timer 2` after the existing record. -/
theorem create_appends_numbered_timer_witness :
    (createOp (fun _ => (1 : Fin 62)) 0
        { items := [{ id := "AAAAAAAA", name := "Old", duration := 5,
                      started_at := none, notes := "" }],
          published := [] }).1.items
      = [{ id := "AAAAAAAA", name := "Old", duration := 5,
           started_at := none, notes := "" },
         { id := "BBBBBBBB", name := "Timer 2", duration := 0,
           started_at := none, notes := "" }] := by
  have h := create_appends_numbered_timer
    { items := [{ id := "AAAAAAAA", name := "Old", duration := 5,
                  started_at := none, notes := "" }],
      published := [] }
    0 (fun _ => (1 : Fin 62)) (by decide)
  exact h.1

/-- C7 counterexample: with matching length (one id for one stored record)
but a requested id that matches no record, `sortByIds` does not rewrite the
collection into the requested order — it corrupts the stored array with an
`undefined` slot and throws a `TypeError` while republishing durations. -/
theorem sortByIds_foreign_id_throws :
    ((["b"] : List String).length
        = ([{ id := "a", name := "n", duration := 1, started_at := none, notes := "x" }]
            : List TimerItemValue).length)
    ∧ sortByIdsOp ["b"] 0
        { items := [{ id := "a", name := "n", duration := 1,
                      started_at := none, notes := "x" }],
          published := [] }
      = Except.error JsError.typeError := by
  exact ⟨rfl, rfl⟩

/-- C7 amended: a length mismatch is a silent no-op; with matching length
and every requested id present, the persisted collection is rewritten so
that position `k` holds the first stored record whose id is `ids[k]` (the
claimed reorder); with matching length but some id absent, the call throws
a `TypeError` (after persisting a corrupted array) instead of reordering. -/
theorem sortByIds_reorder_spec (ids : List String) (now : ℚ) (s : StoreState) :
    (ids.length ≠ s.items.length → sortByIdsOp ids now s = Except.ok s)
    ∧ (ids.length = s.items.length →
        (∀ i ∈ ids, ((s.items.find? fun item => item.id == i).isSome) = true) →
        ∃ s', sortByIdsOp ids now s = Except.ok s'
          ∧ s'.items.map some = ids.map (fun i => s.items.find? fun item => item.id == i)
          ∧ s'.items.map TimerItemValue.id = ids)
    ∧ (ids.length = s.items.length →
        (∃ i ∈ ids, (s.items.find? fun item => item.id == i) = none) →
        sortByIdsOp ids now s = Except.error JsError.typeError) := by
  refine ⟨?_, ?_, ?_⟩
  · intro hne
    unfold sortByIdsOp
    rw [if_pos hne]
  · intro hlen hfound
    have hall : ((ids.map fun i => s.items.find? fun item => item.id == i).all
        Option.isSome) = true := by
      rw [List.all_eq_true]
      intro o ho
      obtain ⟨i, hi, rfl⟩ := List.mem_map.mp ho
      exact hfound i hi
    unfold sortByIdsOp
    rw [if_neg (by simpa using hlen)]
    rw [if_pos hall]
    refine ⟨_, rfl, ?_, ?_⟩
    · simpa using reduceOption_map_some _ hall
    · simpa using selected_ids s.items ids hfound
  · intro hlen hmiss
    obtain ⟨i, hi, hnone⟩ := hmiss
    have hall : ¬ (((ids.map fun j => s.items.find? fun item => item.id == j).all
        Option.isSome) = true) := by
      intro hall
      have := List.all_eq_true.mp hall (s.items.find? fun item => item.id == i)
        (List.mem_map_of_mem _ hi)
      rw [hnone] at this
      exact Bool.noConfusion this
    unfold sortByIdsOp
    rw [if_neg (by simpa using hlen)]
    rw [if_neg hall]

/-- Witness for C7: two stored timers `a`, `b` and ids `["b", "a"]` — the
persisted collection is rewritten into order `b`, `a`. -/
theorem sortByIds_reorder_spec_witness :
    ∃ s', sortByIdsOp ["b", "a"] 0
        { items := [{ id := "a", name := "n", duration := 1,
                      started_at := none, notes := "x" },
                    { id := "b", name := "m", duration := 2,
                      started_at := none, notes := "y" }],
          published := [] }
      = Except.ok s' ∧ s'.items.map TimerItemValue.id = ["b", "a"] := by
  obtain ⟨s', hok, _, hids⟩ := (sortByIds_reorder_spec ["b", "a"] 0
    { items := [{ id := "a", name := "n", duration := 1,
                  started_at := none, notes := "x" },
                { id := "b", name := "m", duration := 2,
                  started_at := none, notes := "y" }],
      published := [] }).2.1 (by decide) (by decide)
  exact ⟨s', hok, hids⟩

/-- Publication through a single-record verb that hits: with distinct stored
ids, the verb publishes exactly the duration pairs of the updated store. -/
theorem verb_published_nodup (id : String) (cb : TimerItemValue → TimerItemValue)
    (now : ℚ) (s : StoreState)
    (hfound : (s.items.findIdx fun item => item.id == id) < s.items.length)
    (hcb : ∀ r, (cb r).id = r.id)
    (h : (s.items.map TimerItemValue.id).Nodup) :
    (updateTimerItemInStore id cb now s).1.published
      = durationPairs ((updateTimerItemInStore id cb now s).1.items) now := by
  have hmap := verb_items_map_id id cb now s hcb
  rw [updateTimerItemInStore_found id cb now s hfound] at hmap ⊢
  simp only [setItems_items] at hmap ⊢
  apply setItems_published_nodup
  rw [hmap]
  exact h

/-- C8: after `list()` and after every persisting operation, the published
aggregate holds exactly one entry per stored record, mapping its id to
`duration + elapsedSince(started_at)` at the moment of publication (the
publication is part of the operation's state transition, hence synchronous).
Stated under the data-model invariant that stored ids are pairwise
distinct. -/
theorem published_map_tracks_store (s : StoreState) (id name notes : String)
    (d now : ℚ) (picks : Fin 8 → Fin 62) (ids : List String) :
    ((s.items.map TimerItemValue.id).Nodup →
       (listOp now s).1.published = durationPairs s.items now)
    ∧ ((((createOp picks now s).1.items.map TimerItemValue.id).Nodup) →
       (createOp picks now s).1.published
         = durationPairs ((createOp picks now s).1.items) now)
    ∧ ((s.items.map TimerItemValue.id).Nodup →
       (deleteOp id now s).1.published
         = durationPairs ((deleteOp id now s).1.items) now)
    ∧ ((s.items.findIdx fun item => item.id == id) < s.items.length →
       (s.items.map TimerItemValue.id).Nodup →
       ((startOp id now s).1.published
           = durationPairs ((startOp id now s).1.items) now
        ∧ (pauseOp id now s).1.published
           = durationPairs ((pauseOp id now s).1.items) now
        ∧ (resetOp id now s).1.published
           = durationPairs ((resetOp id now s).1.items) now
        ∧ (updateNameOp id name now s).1.published
           = durationPairs ((updateNameOp id name now s).1.items) now
        ∧ (updateNotesOp id notes now s).1.published
           = durationPairs ((updateNotesOp id notes now s).1.items) now
        ∧ (updateDurationOp id d now s).1.published
           = durationPairs ((updateDurationOp id d now s).1.items) now))
    ∧ (∀ s', ids.length = s.items.length → sortByIdsOp ids now s = Except.ok s' →
       ids.Nodup → s'.published = durationPairs s'.items now) := by
  refine ⟨?_, ?_, ?_, ?_, ?_⟩
  · intro h
    show mkJsMap (durationPairs s.items now) = durationPairs s.items now
    exact mkJsMap_of_nodup _ (by rw [durationPairs_keys]; exact h)
  · intro h
    exact setItems_published_nodup ((createOp picks now s).1.items) now s h
  · intro h
    have hsub : ((s.items.filter fun item => item.id != id).map TimerItemValue.id).Sublist
        (s.items.map TimerItemValue.id) := (List.filter_sublist _).map _
    exact setItems_published_nodup ((deleteOp id now s).1.items) now s
      (List.Nodup.sublist hsub h)
  · intro hfound h
    exact ⟨verb_published_nodup id _ now s hfound (fun r => rfl) h,
      verb_published_nodup id _ now s hfound (fun r => rfl) h,
      verb_published_nodup id _ now s hfound (fun r => rfl) h,
      verb_published_nodup id _ now s hfound (fun r => rfl) h,
      verb_published_nodup id _ now s hfound (fun r => rfl) h,
      verb_published_nodup id _ now s hfound (fun r => rfl) h⟩
  · intro s' hlen hok hnodup
    unfold sortByIdsOp at hok
    rw [if_neg (by simpa using hlen)] at hok
    by_cases hall : ((ids.map fun i => s.items.find? fun item => item.id == i).all
        Option.isSome) = true
    · rw [if_pos hall] at hok
      have hfound : ∀ i ∈ ids, ((s.items.find? fun item => item.id == i).isSome) = true := by
        intro i hi
        exact List.all_eq_true.mp hall _ (List.mem_map_of_mem _ hi)
      injection hok with hok
      subst hok
      apply setItems_published_nodup
      rw [selected_ids s.items ids hfound]
      exact hnodup
    · rw [if_neg hall] at hok
      exact Except.noConfusion hok

/-- Witness for C8 (live-total consistency): a running timer with
duration 10 started 5 seconds ago — `list()` publishes exactly
`{ "a" ↦ 15 }` and the returned view has `offsetDuration = 15`. -/
theorem published_map_tracks_store_witness :
    (listOp 5000
        { items := [{ id := "a", name := "T", duration := 10,
                      started_at := some 0, notes := "" }],
          published := [] }).1.published = [("a", 15)]
    ∧ ((listOp 5000
        { items := [{ id := "a", name := "T", duration := 10,
                      started_at := some 0, notes := "" }],
          published := [] }).2.map fun v => v.offsetDuration) = [15] := by
  have h := (published_map_tracks_store
    { items := [{ id := "a", name := "T", duration := 10,
                  started_at := some 0, notes := "" }],
      published := [] }
    "x" "y" "z" 0 5000 (fun _ => 0) []).1 (by decide)
  refine ⟨?_, by norm_num [listOp, convertTimerItem, elapsedSince]⟩
  rw [h]
  norm_num [durationPairs, elapsedSince]

/-- C9 counterexample: two `create()` calls whose random picks draw the same
token (all-zero picks, id `"AAAAAAAA"` twice) reach a stored collection with
duplicate ids — the code never checks a generated id against the stored
ones. -/
theorem reachable_duplicate_ids :
    Reachable
      [{ id := "AAAAAAAA", name := "Timer 1", duration := 0,
         started_at := none, notes := "" },
       { id := "AAAAAAAA", name := "Timer 2", duration := 0,
         started_at := none, notes := "" }]
    ∧ ¬ (([{ id := "AAAAAAAA", name := "Timer 1", duration := 0,
             started_at := none, notes := "" },
           { id := "AAAAAAAA", name := "Timer 2", duration := 0,
             started_at := none, notes := "" }] : List TimerItemValue).map
          TimerItemValue.id).Nodup := by
  constructor
  · have h1 := Reachable.create [] (fun _ => (0 : Fin 62)) 0 Reachable.empty
    have h2 := Reachable.create
      ((createOp (fun _ => (0 : Fin 62)) 0 { items := [], published := [] }).1.items)
      (fun _ => (0 : Fin 62)) 0 h1
    exact h2
  · decide

/-- C9 amended: the stored ids are pairwise distinct for every collection
reachable under the benign restrictions the code itself never enforces —
each `create` draws an id distinct from the stored ones and each
`sortByIds` call passes a duplicate-free id list. (Unrestricted, a random
collision or a repeated id in `sortByIds` produces duplicate stored
ids.) -/
theorem reachable_safe_ids_nodup (items : List TimerItemValue)
    (h : ReachableSafe items) : (items.map TimerItemValue.id).Nodup := by
  induction h with
  | empty => simp
  | create items picks now _ hfresh ih =>
    show (((items ++ [_]).map TimerItemValue.id).Nodup)
    rw [List.map_append]
    refine List.Nodup.append ih (by simp) ?_
    intro a ha hb
    simp only [List.map_cons, List.map_nil, List.mem_singleton] at hb
    subst hb
    exact hfresh ha
  | delete items id now _ ih =>
    show (((items.filter fun item => item.id != id).map TimerItemValue.id).Nodup)
    exact List.Nodup.sublist ((List.filter_sublist _).map _) ih
  | start items id now _ ih =>
    have hmap := verb_items_map_id id
      (fun item => { item with started_at := some now }) now ⟨items, []⟩ fun r => rfl
    show (((updateTimerItemInStore id
      (fun item => { item with started_at := some now }) now ⟨items, []⟩).1.items).map
        TimerItemValue.id).Nodup
    rw [hmap]
    exact ih
  | pause items id now _ ih =>
    have hmap := verb_items_map_id id
      (fun item =>
        { item with duration := item.duration + elapsedSince item.started_at now,
                    started_at := none }) now ⟨items, []⟩ fun r => rfl
    show (((updateTimerItemInStore id
      (fun item =>
        { item with duration := item.duration + elapsedSince item.started_at now,
                    started_at := none }) now ⟨items, []⟩).1.items).map
        TimerItemValue.id).Nodup
    rw [hmap]
    exact ih
  | reset items id now _ ih =>
    have hmap := verb_items_map_id id
      (fun item => { item with started_at := none, duration := 0 }) now ⟨items, []⟩
      fun r => rfl
    show (((updateTimerItemInStore id
      (fun item => { item with started_at := none, duration := 0 }) now
        ⟨items, []⟩).1.items).map TimerItemValue.id).Nodup
    rw [hmap]
    exact ih
  | updateName items id name now _ ih =>
    have hmap := verb_items_map_id id
      (fun item => { item with name := name }) now ⟨items, []⟩ fun r => rfl
    show (((updateTimerItemInStore id
      (fun item => { item with name := name }) now ⟨items, []⟩).1.items).map
        TimerItemValue.id).Nodup
    rw [hmap]
    exact ih
  | updateNotes items id notes now _ ih =>
    have hmap := verb_items_map_id id
      (fun item => { item with notes := notes }) now ⟨items, []⟩ fun r => rfl
    show (((updateTimerItemInStore id
      (fun item => { item with notes := notes }) now ⟨items, []⟩).1.items).map
        TimerItemValue.id).Nodup
    rw [hmap]
    exact ih
  | updateDuration items id d now _ ih =>
    have hmap := verb_items_map_id id
      (fun item => { item with duration := d }) now ⟨items, []⟩ fun r => rfl
    show (((updateTimerItemInStore id
      (fun item => { item with duration := d }) now ⟨items, []⟩).1.items).map
        TimerItemValue.id).Nodup
    rw [hmap]
    exact ih
  | sortByIds items ids now s' _ hnodup hok ih =>
    unfold sortByIdsOp at hok
    by_cases hlen : ids.length ≠ (StoreState.mk items []).items.length
    · rw [if_pos hlen] at hok
      injection hok with hok
      subst hok
      exact ih
    · rw [if_neg hlen] at hok
      by_cases hall : ((ids.map fun i =>
          (StoreState.mk items []).items.find? fun item => item.id == i).all
            Option.isSome) = true
      · rw [if_pos hall] at hok
        injection hok with hok
        subst hok
        have hfound : ∀ i ∈ ids,
            (((StoreState.mk items []).items.find? fun item => item.id == i).isSome) = true :=
          fun i hi => List.all_eq_true.mp hall _ (List.mem_map_of_mem _ hi)
        show ((((ids.map fun i =>
          (StoreState.mk items []).items.find? fun item => item.id == i).reduceOption)).map
            TimerItemValue.id).Nodup
        rw [selected_ids _ ids hfound]
        exact hnodup
      · rw [if_neg hall] at hok
        exact Except.noConfusion hok

/-- Witness for C9: the one-record store reached by a single fresh `create`
has pairwise-distinct ids. -/
theorem reachable_safe_ids_nodup_witness :
    (([{ id := "AAAAAAAA", name := "Timer 1", duration := 0,
         started_at := none, notes := "" }] : List TimerItemValue).map
      TimerItemValue.id).Nodup := by
  apply reachable_safe_ids_nodup
  exact ReachableSafe.create [] (fun _ => (0 : Fin 62)) 0 ReachableSafe.empty (by simp)

/-- C10: each single-record verb rewrites only its specified fields of the
first record matching the id — `start` only `started_at`, `pause` only
`duration`/`started_at`, `reset` only `duration`/`started_at`, `updateName`
only `name`, `updateNotes` only `notes`, `updateDuration` only `duration` —
leaving every other record, every untouched field (shown by the record
updates), the collection's order and its length unchanged. -/
theorem single_record_verbs_frame (s : StoreState) (id name notes : String)
    (d now : ℚ) (idx : ℕ) (r : TimerItemValue)
    (hidx : (s.items.findIdx fun item => item.id == id) = idx)
    (hlt : idx < s.items.length)
    (hr : s.items.get ⟨idx, hlt⟩ = r) :
    (startOp id now s).1.items = s.items.set idx { r with started_at := some now }
    ∧ (pauseOp id now s).1.items
        = s.items.set idx
            { r with duration := r.duration + elapsedSince r.started_at now,
                     started_at := none }
    ∧ (resetOp id now s).1.items
        = s.items.set idx { r with duration := 0, started_at := none }
    ∧ (updateNameOp id name now s).1.items = s.items.set idx { r with name := name }
    ∧ (updateNotesOp id notes now s).1.items = s.items.set idx { r with notes := notes }
    ∧ (updateDurationOp id d now s).1.items = s.items.set idx { r with duration := d }
    ∧ (∀ j, j ≠ idx →
        ((startOp id now s).1.items[j]? = s.items[j]?
        ∧ (pauseOp id now s).1.items[j]? = s.items[j]?
        ∧ (resetOp id now s).1.items[j]? = s.items[j]?
        ∧ (updateNameOp id name now s).1.items[j]? = s.items[j]?
        ∧ (updateNotesOp id notes now s).1.items[j]? = s.items[j]?
        ∧ (updateDurationOp id d now s).1.items[j]? = s.items[j]?))
    ∧ (startOp id now s).1.items.length = s.items.length := by
  subst hidx
  subst hr
  have h1 : (startOp id now s).1.items
      = s.items.set (s.items.findIdx fun item => item.id == id)
          { s.items.get ⟨_, hlt⟩ with started_at := some now } := by
    unfold startOp
    rw [updateTimerItemInStore_found id _ now s hlt]
    rfl
  have h2 : (pauseOp id now s).1.items
      = s.items.set (s.items.findIdx fun item => item.id == id)
          { s.items.get ⟨_, hlt⟩ with
              duration := (s.items.get ⟨_, hlt⟩).duration
                + elapsedSince (s.items.get ⟨_, hlt⟩).started_at now,
              started_at := none } := by
    unfold pauseOp
    rw [updateTimerItemInStore_found id _ now s hlt]
    rfl
  have h3 : (resetOp id now s).1.items
      = s.items.set (s.items.findIdx fun item => item.id == id)
          { s.items.get ⟨_, hlt⟩ with duration := 0, started_at := none } := by
    unfold resetOp
    rw [updateTimerItemInStore_found id _ now s hlt]
    rfl
  have h4 : (updateNameOp id name now s).1.items
      = s.items.set (s.items.findIdx fun item => item.id == id)
          { s.items.get ⟨_, hlt⟩ with name := name } := by
    unfold updateNameOp
    rw [updateTimerItemInStore_found id _ now s hlt]
    rfl
  have h5 : (updateNotesOp id notes now s).1.items
      = s.items.set (s.items.findIdx fun item => item.id == id)
          { s.items.get ⟨_, hlt⟩ with notes := notes } := by
    unfold updateNotesOp
    rw [updateTimerItemInStore_found id _ now s hlt]
    rfl
  have h6 : (updateDurationOp id d now s).1.items
      = s.items.set (s.items.findIdx fun item => item.id == id)
          { s.items.get ⟨_, hlt⟩ with duration := d } := by
    unfold updateDurationOp
    rw [updateTimerItemInStore_found id _ now s hlt]
    rfl
  refine ⟨h1, h2, h3, h4, h5, h6, ?_, ?_⟩
  · intro j hj
    have hne : (s.items.findIdx fun item => item.id == id) ≠ j := fun he => hj he.symm
    exact ⟨by rw [h1]; exact List.getElem?_set_ne hne,
      by rw [h2]; exact List.getElem?_set_ne hne,
      by rw [h3]; exact List.getElem?_set_ne hne,
      by rw [h4]; exact List.getElem?_set_ne hne,
      by rw [h5]; exact List.getElem?_set_ne hne,
      by rw [h6]; exact List.getElem?_set_ne hne⟩
  · rw [h1]
    simp

/-- Witness for C10: renaming record `b` in a two-record store rewrites only
that record's name and leaves record `a` (checked through the frame
conjunct) untouched. -/
theorem single_record_verbs_frame_witness :
    (updateNameOp "b" "New" 0
        { items := [{ id := "a", name := "A", duration := 1,
                      started_at := none, notes := "x" },
                    { id := "b", name := "B", duration := 2,
                      started_at := some 7, notes := "y" }],
          published := [] }).1.items
      = [{ id := "a", name := "A", duration := 1, started_at := none, notes := "x" },
         { id := "b", name := "New", duration := 2, started_at := some 7, notes := "y" }]
    ∧ (updateNameOp "b" "New" 0
        { items := [{ id := "a", name := "A", duration := 1,
                      started_at := none, notes := "x" },
                    { id := "b", name := "B", duration := 2,
                      started_at := some 7, notes := "y" }],
          published := [] }).1.items[0]?
      = some { id := "a", name := "A", duration := 1, started_at := none, notes := "x" } := by
  have h := single_record_verbs_frame
    { items := [{ id := "a", name := "A", duration := 1,
                  started_at := none, notes := "x" },
                { id := "b", name := "B", duration := 2,
                  started_at := some 7, notes := "y" }],
      published := [] }
    "b" "New" "nts" 3 0 1
    { id := "b", name := "B", duration := 2, started_at := some 7, notes := "y" }
    (by decide) (by decide) rfl
  exact ⟨h.2.2.2.1, (h.2.2.2.2.2.2.1 0 (by decide)).2.2.2.1⟩

end TimerStoreModel
